import Mathlib

/-
  Verification of the import script of the photometry-multi-import-sync
  repository (src/code/import_script.py).

  The script is embedded shallowly:
  * filenames are Lean String values; Python string slicing and
    str.split('-', 1) are modelled on the underlying character list;
  * the possibility of a Python exception (IndexError from the key
    extraction, RsyncError or any other exception from the aligner
    constructor) is modelled with Option / an explicit exception field;
  * the external loaders (pyControl Session, import_ppd) and the external
    Rsync_aligner constructor are parameters of the batch loop, gathered
    in an Env record, since the loop only consumes their results;
  * numeric data (pulse times, sampling rate) is modelled over the
    rationals.
-/

set_option autoImplicit false

namespace ImportScript

/-! ## Key extraction: the function named with a leading underscore in the
source, here called get_file_info.

Python source, src/code/import_script.py lines 40-44:
  subject_ID = filename[:4]
  date = filename.split('-',1)[1][:10]
  return subject_ID, date

filename.split('-',1)[1] is the part of the filename after the first
dash; when the filename has no dash the indexing [1] raises IndexError,
modelled as none. -/

/-- Characters after the first dash of a character list, none when there
is no dash: the value of the Python expression s.split('-',1)[1],
with none standing for the IndexError raised by the indexing. -/
def afterFirstDash : List Char → Option (List Char)
  | [] => none
  | c :: cs => if c = '-' then some cs else afterFirstDash cs

/-- Python s[:n] on a Lean string. -/
def strTake (s : String) (n : Nat) : String := String.mk (s.data.take n)

/-- The key extraction function of the source (lines 40-44): subject ID is
the first 4 characters, date is the first 10 characters after the first
dash.  Returns none when the filename has no dash (Python IndexError). -/
def get_file_info (filename : String) : Option (String × String) :=
  match afterFirstDash filename.data with
  | none => none
  | some rest => some (strTake filename 4, String.mk (rest.take 10))

/-! ## File correspondence (lines 46-52).

Python source:
  for b_file_name in behaviour_filenames:
      b_file_info = _get_file_info(b_file_name)
      p_file_name = next((f_name for f_name in photometry_filenames
                          if b_file_info == _get_file_info(f_name)), None)
      coresponding_files.append((b_file_name, p_file_name))

The generator inside next() evaluates _get_file_info on the photometry
filenames in list order until the first key match, so an IndexError from
an unparsable photometry filename scanned before a match aborts the whole
step; an outer Option layer models that abort. -/

/-- The value of next((f for f in ps if key == _get_file_info(f)), None):
none models an IndexError raised while scanning, some none is the default
None (no match), some (some f) is the first matching filename. -/
def findMatch (key : String × String) : List String → Option (Option String)
  | [] => some none
  | f :: fs =>
    match get_file_info f with
    | none => none
    | some k => if k = key then some (some f) else findMatch key fs

/-- The coresponding_files list of the source (name kept with its original
spelling), built one entry per behaviour filename; none models an
IndexError aborting the loop. -/
def coresponding_files (behaviour_filenames photometry_filenames : List String) :
    Option (List (String × Option String)) :=
  match behaviour_filenames with
  | [] => some []
  | b :: bs =>
    match get_file_info b with
    | none => none
    | some key =>
      match findMatch key photometry_filenames with
      | none => none
      | some m => (coresponding_files bs photometry_filenames).map (fun l => (b, m) :: l)

/-- The missing_sessions list (lines 84-85): behaviour filenames whose
entry has p_file_name is None. -/
def missing_sessions (pairs : List (String × Option String)) : List String :=
  (pairs.filter (fun bp => bp.2.isNone)).map Prod.fst

/-! ## The import loop (lines 56-78).

The loop loads each behaviour session, and when a photometry file was
matched builds an Rsync_aligner from the session's rsync pulse times, the
photometry pulse sample indices and units_B = 1000/sampling_rate.  Only
RsyncError is caught (the pair goes to sync_errors); any other exception
propagates and aborts the batch.  The session object is appended to
sessions only on success. -/

/-- A Python exception as seen by the loop: RsyncError is the only one
caught; any other exception, identified by a message, is uncaught. -/
inductive PyExc where
  | rsyncError : PyExc
  | other : String → PyExc
  deriving DecidableEq, Repr

/-- The environment of the loop: the results of the external loaders and
of the external Rsync_aligner constructor, as functions of the filenames.
rsyncTimes b models Session(b).times['rsync'], pulseInds2 p models
import_ppd(p)['pulse_inds_2'], samplingRate p models
import_ppd(p)['sampling_rate'], and mkAligner models the Rsync_aligner
constructor with its three arguments pulse_times_A, pulse_times_B,
units_B, returning either an aligner or an exception. -/
structure Env (α : Type) where
  rsyncTimes : String → List ℚ
  pulseInds2 : String → List ℚ
  samplingRate : String → ℚ
  mkAligner : List ℚ → List ℚ → ℚ → Except PyExc α

/-- A session appended to the sessions list: the behaviour filename it was
loaded from, the matched photometry filename, and the aligner stored in
session.photo_data['aligner']. -/
structure GoodSession (α : Type) where
  bName : String
  pName : String
  aligner : α
  deriving DecidableEq, Repr

/-- The state of the module-level accumulators after the loop: the
sessions and sync_errors lists, and the uncaught exception, if any, that
aborted the loop. -/
structure BatchResult (α : Type) where
  sessions : List (GoodSession α)
  sync_errors : List (String × String)
  uncaught : Option PyExc
  deriving DecidableEq, Repr

/-- The units_B argument of the aligner constructor call:
1000/photo_data['sampling_rate'] (line 71). -/
def unitsB {α : Type} (env : Env α) (p : String) : ℚ := 1000 / env.samplingRate p

/-- The loop of lines 59-78.  For each pair: when p_file_name is falsy
(None or the empty string) nothing is recorded; otherwise the aligner
constructor is called with the session's rsync times, the photometry
pulse indices, and units_B.  On success the session is appended to
sessions, on RsyncError the pair is appended to sync_errors, and on any
other exception the loop stops with that exception uncaught, keeping the
entries already accumulated. -/
def process_pairs {α : Type} (env : Env α) : List (String × Option String) → BatchResult α
  | [] => ⟨[], [], none⟩
  | (b, popt) :: rest =>
    match popt with
    | none => process_pairs env rest
    | some p =>
      if p = "" then process_pairs env rest
      else
        match env.mkAligner (env.rsyncTimes b) (env.pulseInds2 p) (unitsB env p) with
        | Except.ok a =>
          let r := process_pairs env rest
          ⟨⟨b, p, a⟩ :: r.sessions, r.sync_errors, r.uncaught⟩
        | Except.error PyExc.rsyncError =>
          let r := process_pairs env rest
          ⟨r.sessions, (b, p) :: r.sync_errors, r.uncaught⟩
        | Except.error (PyExc.other m) => ⟨[], [], some (PyExc.other m)⟩

/-- The session contributed by a single pair, independent of every other
pair: some session exactly when the pair has a truthy photometry filename
and the constructor succeeds. -/
def sessionContrib {α : Type} (env : Env α) : String × Option String → Option (GoodSession α)
  | (_, none) => none
  | (b, some p) =>
    if p = "" then none
    else
      match env.mkAligner (env.rsyncTimes b) (env.pulseInds2 p) (unitsB env p) with
      | Except.ok a => some ⟨b, p, a⟩
      | Except.error _ => none

/-- The sync_errors entry contributed by a single pair, independent of
every other pair: some entry exactly when the constructor raises
RsyncError. -/
def errContrib {α : Type} (env : Env α) : String × Option String → Option (String × String)
  | (_, none) => none
  | (b, some p) =>
    if p = "" then none
    else
      match env.mkAligner (env.rsyncTimes b) (env.pulseInds2 p) (unitsB env p) with
      | Except.ok _ => none
      | Except.error PyExc.rsyncError => some (b, p)
      | Except.error (PyExc.other _) => none

/-- Whether processing a single pair raises an uncaught exception. -/
def pairAborts {α : Type} (env : Env α) : String × Option String → Bool
  | (_, none) => false
  | (b, some p) =>
    if p = "" then false
    else
      match env.mkAligner (env.rsyncTimes b) (env.pulseInds2 p) (unitsB env p) with
      | Except.ok _ => false
      | Except.error PyExc.rsyncError => false
      | Except.error (PyExc.other _) => true

/-- No pair of the list raises an uncaught exception. -/
def NoAbort {α : Type} (env : Env α) (pairs : List (String × Option String)) : Prop :=
  ∀ pair ∈ pairs, pairAborts env pair = false

instance {α : Type} (env : Env α) (pairs : List (String × Option String)) :
    Decidable (NoAbort env pairs) := by
  unfold NoAbort; infer_instance

/-! ## The user-visible summary (lines 80-93). -/

/-- The lines printed by the script: the count of successful sessions,
then the names of the behaviour sessions with no matching photometry
file, then the pairs whose sync pulses could not be aligned. -/
def reportLines (nSessions : Nat) (missing : List String)
    (syncErrs : List (String × String)) : List String :=
  ("Matching behaviour and photometry data found for " ++ toString nSessions
      ++ " sessions.") ::
    ((if missing.isEmpty then [] else
        "No matching photometry data file found for behaviour sessions:" ::
          missing.map (fun b => "    " ++ b)) ++
      (if syncErrs.isEmpty then [] else
        "Sync pulses could not be aligned for sessions:" ::
          syncErrs.map (fun bp => "    " ++ bp.1 ++ " : " ++ bp.2)))

/-! ## The aligner's conversion model and input validation.

The Rsync_aligner class lives in the rsync module, which import_script.py
imports but which is not part of the visible source; the two definitions
below reconstruct the behaviour the specification ascribes to it. -/

/-- Modelled from the spec: the ClockModel of the Rsync_aligner (the rsync
module is not in the visible source).  The fitter stores the parameters
(a, b) of time_B = a * time_A + b together with their inverse
(1/a, -b/a); the model must be invertible, so a is nonzero. -/
structure ClockModel where
  a : ℚ
  b : ℚ
  deriving DecidableEq, Repr

/-- Modelled from the spec: the forward conversion A_to_B of the aligner,
the fitted affine map applied to any time, extrapolation allowed. -/
def A_to_B (m : ClockModel) (x : ℚ) : ℚ := m.a * x + m.b

/-- Modelled from the spec: the inverse conversion B_to_A of the aligner,
the inverse affine map (1/a, -b/a) applied to any time. -/
def B_to_A (m : ClockModel) (y : ℚ) : ℚ := (y - m.b) / m.a

/-- Modelled from the spec: the input validation of the Rsync_aligner
constructor (the rsync module is not in the visible source).  A
non-positive unit scale, an empty pulse sequence or a non-increasing
pulse sequence is MalformedInput, a fatal programming error distinct from
RsyncError; otherwise the constructor hands the inputs to the alignment
computation fit. -/
def checkedAligner {α : Type} (fit : List ℚ → List ℚ → ℚ → Except PyExc α)
    (pulsesA pulsesB : List ℚ) (uB : ℚ) : Except PyExc α :=
  if uB ≤ 0 ∨ pulsesA = [] ∨ pulsesB = [] ∨
      ¬ List.Chain' (· < ·) pulsesA ∨ ¬ List.Chain' (· < ·) pulsesB then
    Except.error (PyExc.other "MalformedInput")
  else fit pulsesA pulsesB uB

/-! ## Concrete environments used by the witnesses. -/

/-- An environment whose aligner constructor always raises RsyncError. -/
def envRsync : Env ℚ :=
  ⟨fun _ => [0, 10], fun _ => [0, 1], fun _ => 100,
    fun _ _ _ => Except.error PyExc.rsyncError⟩

/-- An environment whose aligner constructor always succeeds. -/
def envOk : Env ℚ :=
  ⟨fun _ => [0, 10], fun _ => [0, 1], fun _ => 100, fun _ _ _ => Except.ok 7⟩

/-- An environment whose aligner constructor is the validated constructor
over a trivial fit, and whose pulse sequences are empty, so that every
construction is MalformedInput. -/
def envMalformed : Env ℚ :=
  ⟨fun _ => [], fun _ => [], fun _ => 100, checkedAligner (fun _ _ _ => Except.ok 7)⟩

/-! ## Helper lemmas about key extraction and correspondence. -/

theorem afterFirstDash_of_split (l₁ l₂ : List Char) (h : '-' ∉ l₁) :
    afterFirstDash (l₁ ++ '-' :: l₂) = some l₂ := by
  induction l₁ with
  | nil => simp [afterFirstDash]
  | cons c cs ih =>
    have hc : ¬ c = '-' := fun hc => h (hc ▸ List.mem_cons_self c cs)
    simp only [List.cons_append, afterFirstDash, if_neg hc]
    exact ih (fun hm => h (List.mem_cons_of_mem c hm))

theorem afterFirstDash_of_no_dash (l : List Char) (h : '-' ∉ l) :
    afterFirstDash l = none := by
  induction l with
  | nil => rfl
  | cons c cs ih =>
    have hc : ¬ c = '-' := fun hc => h (hc ▸ List.mem_cons_self c cs)
    simp only [afterFirstDash, if_neg hc]
    exact ih (fun hm => h (List.mem_cons_of_mem c hm))

theorem get_file_info_ne_empty (p : String) (k : String × String)
    (h : get_file_info p = some k) : p ≠ "" := by
  intro hp
  subst hp
  exact Option.noConfusion ((rfl : get_file_info "" = none) ▸ h)

theorem findMatch_sound (key : String × String) (ps : List String) (p : String)
    (h : findMatch key ps = some (some p)) : get_file_info p = some key := by
  induction ps with
  | nil => exact Option.noConfusion (Option.some.inj h)
  | cons f fs ih =>
    rcases hf : get_file_info f with _ | k
    · simp only [findMatch, hf] at h
      exact Option.noConfusion h
    · simp only [findMatch, hf] at h
      by_cases hk : k = key
      · rw [if_pos hk] at h
        obtain rfl : f = p := Option.some.inj (Option.some.inj h)
        rw [hf, hk]
      · rw [if_neg hk] at h
        exact ih h

theorem findMatch_first (key : String × String) (ps : List String) (p : String)
    (h : findMatch key ps = some (some p)) :
    ∃ pre post, ps = pre ++ p :: post ∧ get_file_info p = some key ∧
      ∀ q ∈ pre, get_file_info q ≠ some key := by
  induction ps with
  | nil => exact Option.noConfusion (Option.some.inj h)
  | cons f fs ih =>
    rcases hf : get_file_info f with _ | k
    · simp only [findMatch, hf] at h
      exact Option.noConfusion h
    · simp only [findMatch, hf] at h
      by_cases hk : k = key
      · rw [if_pos hk] at h
        obtain rfl : f = p := Option.some.inj (Option.some.inj h)
        exact ⟨[], fs, rfl, by rw [hf, hk], by simp⟩
      · rw [if_neg hk] at h
        obtain ⟨pre, post, hps, hp, hpre⟩ := ih h
        refine ⟨f :: pre, post, by rw [hps, List.cons_append], hp, ?_⟩
        intro q hq
        rcases List.mem_cons.mp hq with rfl | hq'
        · rw [hf]
          exact fun hs => hk (Option.some.inj hs)
        · exact hpre q hq'

theorem findMatch_isSome (key : String × String) (ps : List String)
    (h : ∀ p ∈ ps, (get_file_info p).isSome) : (findMatch key ps).isSome := by
  induction ps with
  | nil => rfl
  | cons f fs ih =>
    rcases hf : get_file_info f with _ | k
    · have := h f (List.mem_cons_self f fs)
      rw [hf] at this
      exact Bool.noConfusion this
    · simp only [findMatch, hf]
      by_cases hk : k = key
      · rw [if_pos hk]; rfl
      · rw [if_neg hk]
        exact ih (fun p hp => h p (List.mem_cons_of_mem f hp))

theorem findMatch_of_no_match (key : String × String) (b : String) (ps : List String)
    (hb : get_file_info b = some key)
    (hp : ∀ p ∈ ps, (get_file_info p).isSome)
    (hne : ∀ p ∈ ps, get_file_info p ≠ get_file_info b) :
    findMatch key ps = some none := by
  induction ps with
  | nil => rfl
  | cons f fs ih =>
    rcases hf : get_file_info f with _ | k
    · have := hp f (List.mem_cons_self f fs)
      rw [hf] at this
      exact Bool.noConfusion this
    · simp only [findMatch, hf]
      have hk : ¬ k = key := by
        intro hk
        exact hne f (List.mem_cons_self f fs) (by rw [hf, hb, hk])
      rw [if_neg hk]
      exact ih (fun p h => hp p (List.mem_cons_of_mem f h))
        (fun p h => hne p (List.mem_cons_of_mem f h))

theorem coresponding_files_fst (bs ps : List String) (l : List (String × Option String))
    (h : coresponding_files bs ps = some l) : l.map Prod.fst = bs := by
  induction bs generalizing l with
  | nil =>
    obtain rfl : [] = l := Option.some.inj h
    rfl
  | cons b bs ih =>
    rcases hb : get_file_info b with _ | key
    · simp only [coresponding_files, hb] at h
      exact Option.noConfusion h
    · simp only [coresponding_files, hb] at h
      rcases hm : findMatch key ps with _ | m
      · simp only [hm] at h
        exact Option.noConfusion h
      · simp only [hm] at h
        obtain ⟨rest, hrest, hl⟩ := Option.map_eq_some'.mp h
        rw [← hl, List.map_cons, ih rest hrest]

theorem coresponding_files_total (bs ps : List String)
    (hb : ∀ b ∈ bs, (get_file_info b).isSome)
    (hp : ∀ p ∈ ps, (get_file_info p).isSome) :
    ∃ l, coresponding_files bs ps = some l := by
  induction bs with
  | nil => exact ⟨[], rfl⟩
  | cons b bs ih =>
    rcases hk : get_file_info b with _ | key
    · have := hb b (List.mem_cons_self b bs)
      rw [hk] at this
      exact Bool.noConfusion this
    · obtain ⟨l, hl⟩ := ih (fun x hx => hb x (List.mem_cons_of_mem b hx))
      have hfm := findMatch_isSome key ps hp
      rcases hm : findMatch key ps with _ | m
      · rw [hm] at hfm
        exact Bool.noConfusion hfm
      · exact ⟨(b, m) :: l, by simp [coresponding_files, hk, hm, hl]⟩

theorem coresponding_files_mem_sound (bs ps : List String)
    (l : List (String × Option String)) (b : String) (popt : Option String)
    (h : coresponding_files bs ps = some l) (hmem : (b, popt) ∈ l) :
    ∃ key, get_file_info b = some key ∧ findMatch key ps = some popt := by
  induction bs generalizing l with
  | nil =>
    obtain rfl : [] = l := Option.some.inj h
    exact absurd hmem (List.not_mem_nil _)
  | cons b' bs ih =>
    rcases hb : get_file_info b' with _ | key
    · simp only [coresponding_files, hb] at h
      exact Option.noConfusion h
    · simp only [coresponding_files, hb] at h
      rcases hm : findMatch key ps with _ | m
      · simp only [hm] at h
        exact Option.noConfusion h
      · simp only [hm] at h
        obtain ⟨rest, hrest, hl⟩ := Option.map_eq_some'.mp h
        rw [← hl] at hmem
        rcases List.mem_cons.mp hmem with heq | hmem'
        · obtain ⟨rfl, rfl⟩ := Prod.mk.injEq .. ▸ heq
          exact ⟨key, hb, hm⟩
        · exact ih rest hrest hmem'

theorem coresponding_files_mem_of_mem (bs ps : List String)
    (l : List (String × Option String)) (b : String)
    (h : coresponding_files bs ps = some l) (hmem : b ∈ bs) :
    ∃ popt key, (b, popt) ∈ l ∧ get_file_info b = some key ∧
      findMatch key ps = some popt := by
  induction bs generalizing l with
  | nil => exact absurd hmem (List.not_mem_nil _)
  | cons b' bs ih =>
    rcases hb : get_file_info b' with _ | key
    · simp only [coresponding_files, hb] at h
      exact Option.noConfusion h
    · simp only [coresponding_files, hb] at h
      rcases hm : findMatch key ps with _ | m
      · simp only [hm] at h
        exact Option.noConfusion h
      · simp only [hm] at h
        obtain ⟨rest, hrest, hl⟩ := Option.map_eq_some'.mp h
        rcases List.mem_cons.mp hmem with rfl | hmem'
        · exact ⟨m, key, by rw [← hl]; exact List.mem_cons_self _ _, hb, hm⟩
        · obtain ⟨popt, key', hin, hk, hf⟩ := ih rest hrest hmem'
          exact ⟨popt, key', by rw [← hl]; exact List.mem_cons_of_mem _ hin, hk, hf⟩

theorem mem_missing_sessions (l : List (String × Option String)) (b : String)
    (h : (b, none) ∈ l) : b ∈ missing_sessions l := by
  unfold missing_sessions
  exact List.mem_map.mpr ⟨(b, none), List.mem_filter.mpr ⟨h, rfl⟩, rfl⟩

/-! ## Helper lemmas about the import loop. -/

theorem noAbort_cons {α : Type} (env : Env α) (q : String × Option String)
    (pairs : List (String × Option String)) (h : NoAbort env (q :: pairs)) :
    pairAborts env q = false ∧ NoAbort env pairs :=
  ⟨h q (List.mem_cons_self q pairs), fun x hx => h x (List.mem_cons_of_mem q hx)⟩

theorem process_pairs_of_noAbort {α : Type} (env : Env α)
    (pairs : List (String × Option String)) (h : NoAbort env pairs) :
    process_pairs env pairs =
      ⟨pairs.filterMap (sessionContrib env), pairs.filterMap (errContrib env), none⟩ := by
  induction pairs with
  | nil => rfl
  | cons q rest ih =>
    obtain ⟨hq, hrest⟩ := noAbort_cons env q rest h
    obtain ⟨b, popt⟩ := q
    cases popt with
    | none =>
      simp only [process_pairs, sessionContrib, errContrib, List.filterMap_cons]
      exact ih hrest
    | some p =>
      by_cases hp : p = ""
      · subst hp
        simp only [process_pairs, sessionContrib, errContrib, List.filterMap_cons,
          if_pos rfl]
        exact ih hrest
      · rcases hres : env.mkAligner (env.rsyncTimes b) (env.pulseInds2 p) (unitsB env p)
          with e | a
        · cases e with
          | rsyncError =>
            simp only [process_pairs, sessionContrib, errContrib, List.filterMap_cons,
              if_neg hp, hres, ih hrest]
          | other m =>
            exfalso
            simp only [pairAborts, if_neg hp, hres] at hq
            exact Bool.noConfusion hq
        · simp only [process_pairs, sessionContrib, errContrib, List.filterMap_cons,
            if_neg hp, hres, ih hrest]

theorem process_pairs_abort {α : Type} (env : Env α)
    (pre : List (String × Option String)) (b p : String) (m : String)
    (hpre : NoAbort env pre) (hp : p ≠ "")
    (hx : env.mkAligner (env.rsyncTimes b) (env.pulseInds2 p) (unitsB env p) =
      Except.error (PyExc.other m))
    (post : List (String × Option String)) :
    process_pairs env (pre ++ (b, some p) :: post) =
      ⟨pre.filterMap (sessionContrib env), pre.filterMap (errContrib env),
        some (PyExc.other m)⟩ := by
  induction pre with
  | nil => simp only [List.nil_append, process_pairs, if_neg hp, hx, List.filterMap_nil]
  | cons q rest ih =>
    obtain ⟨hq, hrest⟩ := noAbort_cons env q rest hpre
    obtain ⟨b', popt⟩ := q
    cases popt with
    | none =>
      simp only [List.cons_append, process_pairs, sessionContrib, errContrib,
        List.filterMap_cons, List.append_eq]
      exact ih hrest
    | some p' =>
      by_cases hp' : p' = ""
      · subst hp'
        simp only [List.cons_append, process_pairs, sessionContrib, errContrib,
          List.filterMap_cons, if_pos rfl, List.append_eq]
        exact ih hrest
      · rcases hres : env.mkAligner (env.rsyncTimes b') (env.pulseInds2 p') (unitsB env p')
          with e | a
        · cases e with
          | rsyncError =>
            simp only [List.cons_append, process_pairs, sessionContrib, errContrib,
              List.filterMap_cons, if_neg hp', hres, List.append_eq, ih hrest]
          | other m' =>
            exfalso
            simp only [pairAborts, if_neg hp', hres] at hq
            exact Bool.noConfusion hq
        · simp only [List.cons_append, process_pairs, sessionContrib, errContrib,
            List.filterMap_cons, if_neg hp', hres, List.append_eq, ih hrest]

theorem errContrib_inv {α : Type} (env : Env α) (q : String × Option String)
    (b p : String) (h : errContrib env q = some (b, p)) :
    q = (b, some p) ∧ p ≠ "" ∧
      env.mkAligner (env.rsyncTimes b) (env.pulseInds2 p) (unitsB env p) =
        Except.error PyExc.rsyncError := by
  obtain ⟨b', popt⟩ := q
  cases popt with
  | none => exact Option.noConfusion h
  | some p' =>
    by_cases hp' : p' = ""
    · rw [errContrib, if_pos hp'] at h
      exact Option.noConfusion h
    · rw [errContrib, if_neg hp'] at h
      rcases hres : env.mkAligner (env.rsyncTimes b') (env.pulseInds2 p') (unitsB env p')
        with e | a
      · cases e with
        | rsyncError =>
          rw [hres] at h
          obtain ⟨rfl, rfl⟩ := Prod.mk.injEq .. ▸ Option.some.inj h
          exact ⟨rfl, hp', hres⟩
        | other m =>
          rw [hres] at h
          exact Option.noConfusion h
      · rw [hres] at h
        exact Option.noConfusion h

theorem count_accounting {α : Type} (env : Env α)
    (pairs : List (String × Option String))
    (hwf : ∀ q ∈ pairs, ∀ p : String, q.2 = some p → p ≠ "")
    (hna : NoAbort env pairs) (b : String) :
    ((pairs.filterMap (sessionContrib env)).map GoodSession.bName).count b
      + (missing_sessions pairs).count b
      + ((pairs.filterMap (errContrib env)).map Prod.fst).count b
      = (pairs.map Prod.fst).count b := by
  induction pairs with
  | nil => rfl
  | cons q rest ih =>
    obtain ⟨hq, hrest⟩ := noAbort_cons env q rest hna
    have hwrest : ∀ q ∈ rest, ∀ p : String, q.2 = some p → p ≠ "" :=
      fun x hx => hwf x (List.mem_cons_of_mem q hx)
    have ihr := ih hwrest hrest
    obtain ⟨b', popt⟩ := q
    cases popt with
    | none =>
      simp [sessionContrib, errContrib, missing_sessions, List.filterMap_cons,
        List.filter_cons, List.count_cons] at ihr ⊢
      omega
    | some p =>
      have hp : p ≠ "" := hwf (b', some p) (List.mem_cons_self _ _) p rfl
      rcases hres : env.mkAligner (env.rsyncTimes b') (env.pulseInds2 p) (unitsB env p)
        with e | a
      · cases e with
        | rsyncError =>
          simp [sessionContrib, errContrib, missing_sessions, List.filterMap_cons,
            List.filter_cons, List.count_cons, if_neg hp, hres] at ihr ⊢
          omega
        | other m =>
          exfalso
          simp only [pairAborts, if_neg hp, hres] at hq
          exact Bool.noConfusion hq
      · simp [sessionContrib, errContrib, missing_sessions, List.filterMap_cons,
          List.filter_cons, List.count_cons, if_neg hp, hres] at ihr ⊢
        omega

theorem mem_reportLines_missing (n : Nat) (missing : List String)
    (syncErrs : List (String × String)) (b : String) (hb : b ∈ missing) :
    ("    " ++ b) ∈ reportLines n missing syncErrs := by
  have hne : missing.isEmpty = false := by
    rcases missing with _ | ⟨x, xs⟩
    · exact absurd hb (List.not_mem_nil _)
    · rfl
  simp only [reportLines, hne, Bool.false_eq_true, if_false]
  exact List.mem_cons_of_mem _ (List.mem_append_left _
    (List.mem_cons_of_mem _ (List.mem_map.mpr ⟨b, hb, rfl⟩)))

theorem mem_reportLines_sync (n : Nat) (missing : List String)
    (syncErrs : List (String × String)) (bp : String × String) (hbp : bp ∈ syncErrs) :
    ("    " ++ bp.1 ++ " : " ++ bp.2) ∈ reportLines n missing syncErrs := by
  have hne : syncErrs.isEmpty = false := by
    rcases syncErrs with _ | ⟨x, xs⟩
    · exact absurd hbp (List.not_mem_nil _)
    · rfl
  simp only [reportLines, hne, Bool.false_eq_true, if_false]
  exact List.mem_cons_of_mem _ (List.mem_append_right _
    (List.mem_cons_of_mem _ (List.mem_map.mpr ⟨bp, hbp, rfl⟩)))

/-! ## The claims. -/

/-- Claim C1: for every list of pairs, if constructing the aligner for a
pair raises RsyncError, that pair is appended to sync_errors, no session
for it is appended to sessions, and processing continues with all
remaining pairs: when no pair raises an uncaught exception, the sessions
and sync_errors lists are the concatenations of per-pair contributions,
each depending only on its own pair, so one pair's failure never changes
another pair's outcome. -/
theorem c1_rsync_error_isolated {α : Type} (env : Env α)
    (pairs : List (String × Option String)) (h : NoAbort env pairs) :
    (process_pairs env pairs).sessions = pairs.filterMap (sessionContrib env) ∧
    (process_pairs env pairs).sync_errors = pairs.filterMap (errContrib env) ∧
    (process_pairs env pairs).uncaught = none ∧
    ∀ b p : String, (b, some p) ∈ pairs → p ≠ "" →
      env.mkAligner (env.rsyncTimes b) (env.pulseInds2 p) (unitsB env p) =
        Except.error PyExc.rsyncError →
      (b, p) ∈ (process_pairs env pairs).sync_errors ∧
        sessionContrib env (b, some p) = none ∧
        errContrib env (b, some p) = some (b, p) := by
  have hd := process_pairs_of_noAbort env pairs h
  rw [hd]
  refine ⟨rfl, rfl, rfl, ?_⟩
  intro b p hmem hp hres
  have hsc : sessionContrib env (b, some p) = none := by
    simp only [sessionContrib, if_neg hp, hres]
  have hec : errContrib env (b, some p) = some (b, p) := by
    simp only [errContrib, if_neg hp, hres]
  exact ⟨List.mem_filterMap.mpr ⟨(b, some p), hmem, hec⟩, hsc, hec⟩

/-- Witness for C1 with an environment whose constructor always raises
RsyncError. -/
theorem c1_witness :
    ("b", "p") ∈ (process_pairs envRsync [("b", some "p")]).sync_errors ∧
    sessionContrib envRsync ("b", some "p") = none := by
  have h := c1_rsync_error_isolated envRsync [("b", some "p")] (by decide)
  have h4 := h.2.2.2 "b" "p" (List.mem_cons_self _ _) (by decide) rfl
  exact ⟨h4.1, h4.2.1⟩

/-- Claim C5: every session appended to the sessions list carries an
aligner obtained from the constructor applied to the session's rsync
pulse times as pulse_times_A, the photometry pulse sample indices as
pulse_times_B, and 1000 divided by the photometry sampling rate as the
unit scale for B. -/
theorem c5_aligner_arguments {α : Type} (env : Env α)
    (pairs : List (String × Option String)) :
    ∀ s ∈ (process_pairs env pairs).sessions,
      env.mkAligner (env.rsyncTimes s.bName) (env.pulseInds2 s.pName)
        (1000 / env.samplingRate s.pName) = Except.ok s.aligner := by
  induction pairs with
  | nil => intro s hs; exact absurd hs (List.not_mem_nil _)
  | cons q rest ih =>
    obtain ⟨b, popt⟩ := q
    cases popt with
    | none =>
      intro s hs
      simp only [process_pairs] at hs
      exact ih s hs
    | some p =>
      by_cases hp : p = ""
      · subst hp
        intro s hs
        simp only [process_pairs, if_pos rfl] at hs
        exact ih s hs
      · rcases hres : env.mkAligner (env.rsyncTimes b) (env.pulseInds2 p) (unitsB env p)
          with e | a
        · cases e with
          | rsyncError =>
            intro s hs
            simp only [process_pairs, if_neg hp, hres] at hs
            exact ih s hs
          | other m =>
            intro s hs
            simp only [process_pairs, if_neg hp, hres] at hs
            exact absurd hs (List.not_mem_nil _)
        · intro s hs
          simp only [process_pairs, if_neg hp, hres] at hs
          rcases List.mem_cons.mp hs with rfl | hs'
          · exact hres
          · exact ih s hs'

/-- Witness for C5 with an environment whose constructor always
succeeds. -/
theorem c5_witness :
    envOk.mkAligner (envOk.rsyncTimes "b") (envOk.pulseInds2 "p")
      (1000 / envOk.samplingRate "p") = Except.ok (7 : ℚ) :=
  c5_aligner_arguments envOk [("b", some "p")] ⟨"b", "p", 7⟩ (by decide)

/-- Claim C6: for every constructed aligner (an invertible fitted clock
model) and every time x, the conversions are mutual inverses:
B_to_A (A_to_B x) = x and A_to_B (B_to_A x) = x, exactly over the
rationals and hence within any floating-point tolerance, with no
restriction of x to the matched pulse range. -/
theorem c6_round_trip (m : ClockModel) (ha : m.a ≠ 0) (x : ℚ) :
    B_to_A m (A_to_B m x) = x ∧ A_to_B m (B_to_A m x) = x := by
  refine ⟨?_, ?_⟩ <;> field_simp [A_to_B, B_to_A]

/-- Witness for C6 at the clock model with slope 2 and intercept 3 and
the time 5. -/
theorem c6_witness :
    (ClockModel.mk 2 3).a ≠ 0 ∧
    (B_to_A ⟨2, 3⟩ (A_to_B ⟨2, 3⟩ 5) = 5 ∧ A_to_B ⟨2, 3⟩ (B_to_A ⟨2, 3⟩ 5) = 5) :=
  ⟨by decide, c6_round_trip ⟨2, 3⟩ (by decide) 5⟩

/-- Claim C7: when the correspondence step completes and no pair raises
an uncaught exception, every behavioural filename is accounted for
exactly once across sessions, missing_sessions and sync_errors, and the
printed summary reports the count of successes and names every record of
the latter two collections. -/
theorem c7_accounting {α : Type} (env : Env α) (bs ps : List String)
    (pairs : List (String × Option String))
    (hc : coresponding_files bs ps = some pairs)
    (hna : NoAbort env pairs) (hnd : bs.Nodup) :
    (∀ b ∈ bs,
      ((process_pairs env pairs).sessions.map GoodSession.bName).count b
        + (missing_sessions pairs).count b
        + ((process_pairs env pairs).sync_errors.map Prod.fst).count b = 1) ∧
    ("Matching behaviour and photometry data found for "
        ++ toString (process_pairs env pairs).sessions.length ++ " sessions.")
      ∈ reportLines (process_pairs env pairs).sessions.length
          (missing_sessions pairs) (process_pairs env pairs).sync_errors ∧
    (∀ b ∈ missing_sessions pairs,
      ("    " ++ b) ∈ reportLines (process_pairs env pairs).sessions.length
          (missing_sessions pairs) (process_pairs env pairs).sync_errors) ∧
    (∀ bp ∈ (process_pairs env pairs).sync_errors,
      ("    " ++ bp.1 ++ " : " ++ bp.2) ∈
        reportLines (process_pairs env pairs).sessions.length
          (missing_sessions pairs) (process_pairs env pairs).sync_errors) := by
  have hfst := coresponding_files_fst bs ps pairs hc
  have hwf : ∀ q ∈ pairs, ∀ p : String, q.2 = some p → p ≠ "" := by
    rintro ⟨b', popt⟩ hq p hpop
    obtain ⟨key, hk, hf⟩ := coresponding_files_mem_sound bs ps pairs b' popt hc hq
    have hpop' : popt = some p := hpop
    subst hpop'
    exact get_file_info_ne_empty p key (findMatch_sound key ps p hf)
  have hd := process_pairs_of_noAbort env pairs hna
  refine ⟨?_, ?_, ?_, ?_⟩
  · intro b hb
    have hcount := count_accounting env pairs hwf hna b
    rw [hfst] at hcount
    rw [List.count_eq_one_of_mem hnd hb] at hcount
    simpa only [hd] using hcount
  · exact List.mem_cons_self _ _
  · intro b hb
    exact mem_reportLines_missing _ _ _ b hb
  · intro bp hbp
    exact mem_reportLines_sync _ _ _ bp hbp

/-- Witness for C7 at the example behavioural and photometry filename
lists, with an environment whose constructor always succeeds. -/
theorem c7_witness :
    ((process_pairs envOk
          [("m001-2019-01-01.txt", some "m001-2019-01-01.ppd"),
            ("m002-2019-01-01.txt", none)]).sessions.map GoodSession.bName).count
        "m001-2019-01-01.txt"
      + (missing_sessions
          [("m001-2019-01-01.txt", some "m001-2019-01-01.ppd"),
            ("m002-2019-01-01.txt", none)]).count "m001-2019-01-01.txt"
      + ((process_pairs envOk
          [("m001-2019-01-01.txt", some "m001-2019-01-01.ppd"),
            ("m002-2019-01-01.txt", none)]).sync_errors.map Prod.fst).count
        "m001-2019-01-01.txt" = 1 :=
  (c7_accounting envOk ["m001-2019-01-01.txt", "m002-2019-01-01.txt"]
      ["m001-2019-01-01.ppd"]
      [("m001-2019-01-01.txt", some "m001-2019-01-01.ppd"),
        ("m002-2019-01-01.txt", none)]
      (by decide) (by decide) (by decide)).1
    "m001-2019-01-01.txt" (by decide)

/-- Claim C9: malformed input to the aligner constructor (non-positive
unit scale, empty or non-increasing pulse sequence) raises an exception
other than RsyncError; the loop catches only RsyncError, so such a pair
aborts processing immediately — the result is the state accumulated
before the pair with the exception uncaught, identical to the result with
all later pairs removed, and the pair is not collected into
sync_errors. -/
theorem c9_uncaught_aborts {α : Type} (env : Env α)
    (fit : List ℚ → List ℚ → ℚ → Except PyExc α)
    (hck : env.mkAligner = checkedAligner fit)
    (pre post : List (String × Option String)) (b p : String)
    (hpre : NoAbort env pre) (hp : p ≠ "")
    (hmal : unitsB env p ≤ 0 ∨ env.rsyncTimes b = [] ∨ env.pulseInds2 p = [] ∨
      ¬ List.Chain' (· < ·) (env.rsyncTimes b) ∨
      ¬ List.Chain' (· < ·) (env.pulseInds2 p)) :
    process_pairs env (pre ++ (b, some p) :: post) =
      ⟨pre.filterMap (sessionContrib env), pre.filterMap (errContrib env),
        some (PyExc.other "MalformedInput")⟩ ∧
    process_pairs env (pre ++ (b, some p) :: post) =
      process_pairs env (pre ++ [(b, some p)]) ∧
    (b, p) ∉ (process_pairs env (pre ++ (b, some p) :: post)).sync_errors := by
  have hx : env.mkAligner (env.rsyncTimes b) (env.pulseInds2 p) (unitsB env p) =
      Except.error (PyExc.other "MalformedInput") := by
    rw [hck]
    unfold checkedAligner
    rw [if_pos hmal]
  have h1 := process_pairs_abort env pre b p "MalformedInput" hpre hp hx post
  have h2 := process_pairs_abort env pre b p "MalformedInput" hpre hp hx []
  refine ⟨h1, by rw [h1, h2], ?_⟩
  rw [h1]
  intro hmem
  obtain ⟨q, hq, hcq⟩ := List.mem_filterMap.mp hmem
  obtain ⟨rfl, hp', hres⟩ := errContrib_inv env q b p hcq
  rw [hres] at hx
  exact PyExc.noConfusion (Except.error.inj hx)

/-- Witness for C9 with an environment whose pulse sequences are empty,
so that the validated constructor raises MalformedInput. -/
theorem c9_witness :
    process_pairs envMalformed [("b", some "p")] =
      ⟨[], [], some (PyExc.other "MalformedInput")⟩ ∧
    ("b", "p") ∉ (process_pairs envMalformed [("b", some "p")]).sync_errors := by
  have h := c9_uncaught_aborts envMalformed (fun _ _ _ => Except.ok 7) rfl [] [] "b" "p"
    (by decide) (by decide) (Or.inr (Or.inl rfl))
  exact ⟨h.1, h.2.2⟩

/-- Claim C10: the key-extraction function is partial: for any filename
containing at least one dash it returns (the first 4 characters, the
first 10 characters after the first dash) regardless of the filename's
actual structure, and for any filename containing no dash it fails with
an index error (modelled as none) rather than returning a key. -/
theorem c10_key_extraction_domain (s : String) :
    (∀ l₁ l₂ : List Char, s.data = l₁ ++ '-' :: l₂ → '-' ∉ l₁ →
      get_file_info s = some (String.mk (s.data.take 4), String.mk (l₂.take 10))) ∧
    ('-' ∉ s.data → get_file_info s = none) := by
  constructor
  · intro l₁ l₂ hsplit hnot
    simp only [get_file_info, strTake, hsplit, afterFirstDash_of_split l₁ l₂ hnot]
  · intro h
    simp only [get_file_info, afterFirstDash_of_no_dash s.data h]

/-- Witness for C10 at the filenames "ab-c" (one dash) and "abc" (no
dash). -/
theorem c10_witness :
    get_file_info "ab-c" =
      some (String.mk ("ab-c".data.take 4), String.mk (['c'].take 10)) ∧
    get_file_info "abc" = none :=
  ⟨(c10_key_extraction_domain "ab-c").1 ['a', 'b'] ['c'] (by decide) (by decide),
    (c10_key_extraction_domain "abc").2 (by decide)⟩

/-- Claim C8: on behavioural filenames m001-2019-01-01.txt and
m002-2019-01-01.txt and photometry filename m001-2019-01-01.ppd, the
correspondence step pairs m001 with its ppd file and records m002 with an
absent counterpart, which then appears in missing_sessions. -/
theorem c8_example_pairing :
    coresponding_files ["m001-2019-01-01.txt", "m002-2019-01-01.txt"]
        ["m001-2019-01-01.ppd"] =
      some [("m001-2019-01-01.txt", some "m001-2019-01-01.ppd"),
        ("m002-2019-01-01.txt", none)] ∧
    missing_sessions [("m001-2019-01-01.txt", some "m001-2019-01-01.ppd"),
        ("m002-2019-01-01.txt", none)] = ["m002-2019-01-01.txt"] := by
  decide

/-- Counterexample to claim C2 as stated: on the behavioural filename
list ["abc"] (no dash) and the empty photometry list, the correspondence
step raises IndexError instead of producing one entry per behavioural
filename. -/
theorem c2_counterexample :
    ¬ ∃ l, coresponding_files ["abc"] [] = some l ∧ l.map Prod.fst = ["abc"] := by
  rintro ⟨l, hl, -⟩
  rw [show coresponding_files ["abc"] [] = none from by decide] at hl
  exact Option.noConfusion hl

/-- Claim C2 (amended): provided key extraction succeeds on every
behavioural and every photometry filename, the correspondence step
completes and produces exactly one output entry per behavioural filename,
in the order of the behavioural list, of the form (behavioural filename,
matching photometry filename or none); no behavioural filename is dropped
or duplicated. -/
theorem c2_one_entry_per_behaviour (bs ps : List String)
    (hb : ∀ b ∈ bs, (get_file_info b).isSome)
    (hp : ∀ p ∈ ps, (get_file_info p).isSome) :
    ∃ l, coresponding_files bs ps = some l ∧ l.map Prod.fst = bs := by
  obtain ⟨l, hl⟩ := coresponding_files_total bs ps hb hp
  exact ⟨l, hl, coresponding_files_fst bs ps l hl⟩

/-- Witness for the amended C2 at a concrete behavioural list and the
empty photometry list. -/
theorem c2_witness :
    ∃ l, coresponding_files ["m001-2019-01-01.txt"] [] = some l ∧
      l.map Prod.fst = ["m001-2019-01-01.txt"] :=
  c2_one_entry_per_behaviour ["m001-2019-01-01.txt"] [] (by decide) (by decide)

/-- Counterexample to claim C3 as stated: the behavioural filename's key
is shared by two photometry filenames, but because an unparsable
photometry filename is scanned before the first match, the step raises
IndexError and no pairing at all is produced, in particular not the first
matching filename. -/
theorem c3_counterexample :
    get_file_info "m001-2019-01-01.ppd" = get_file_info "m001-2019-01-01.txt" ∧
    get_file_info "m001-2019-01-01x.ppd" = get_file_info "m001-2019-01-01.txt" ∧
    coresponding_files ["m001-2019-01-01.txt"]
      ["zz", "m001-2019-01-01.ppd", "m001-2019-01-01x.ppd"] = none := by
  decide

/-- Claim C3 (amended): whenever the correspondence step completes (no
IndexError), every matched photometry filename is the first one in the
photometry list's iteration order whose key equals the behavioural
filename's key, later matches being ignored; in particular this covers
every behavioural filename whose key is shared by two or more photometry
filenames. -/
theorem c3_first_match_wins (bs ps : List String)
    (l : List (String × Option String)) (b p : String)
    (hl : coresponding_files bs ps = some l) (hmem : (b, some p) ∈ l) :
    ∃ pre post, ps = pre ++ p :: post ∧ get_file_info p = get_file_info b ∧
      ∀ q ∈ pre, get_file_info q ≠ get_file_info b := by
  obtain ⟨key, hb, hm⟩ := coresponding_files_mem_sound bs ps l b (some p) hl hmem
  obtain ⟨pre, post, hps, hpk, hpre⟩ := findMatch_first key ps p hm
  exact ⟨pre, post, hps, by rw [hpk, hb], fun q hq => by rw [hb]; exact hpre q hq⟩

/-- Witness for the amended C3: two photometry files share the key and
the first one is the one paired. -/
theorem c3_witness :
    ∃ pre post,
      ["m003-2019-01-01.ppd", "m003-2019-01-01b.ppd"] =
        pre ++ "m003-2019-01-01.ppd" :: post ∧
      get_file_info "m003-2019-01-01.ppd" = get_file_info "m003-2019-01-01.txt" ∧
      ∀ q ∈ pre, get_file_info q ≠ get_file_info "m003-2019-01-01.txt" :=
  c3_first_match_wins ["m003-2019-01-01.txt"]
    ["m003-2019-01-01.ppd", "m003-2019-01-01b.ppd"]
    [("m003-2019-01-01.txt", some "m003-2019-01-01.ppd")]
    "m003-2019-01-01.txt" "m003-2019-01-01.ppd" (by decide) (by decide)

/-- Counterexample to claim C4 as stated: the behavioural filename's key
matches no photometry filename, but the correspondence step raises
IndexError (while extracting the key of the unparsable photometry
filename) instead of recording none without error. -/
theorem c4_counterexample :
    (∀ p ∈ ["zz"], get_file_info p ≠ get_file_info "m001-2019-01-01.txt") ∧
    coresponding_files ["m001-2019-01-01.txt"] ["zz"] = none := by
  decide

/-- Claim C4 (amended): provided key extraction succeeds on every
behavioural and every photometry filename, a behavioural filename whose
key matches no photometry filename gets the entry (filename, none)
without any error and appears in the missing_sessions list reported to
the user. -/
theorem c4_missing_recorded (bs ps : List String) (b : String)
    (hb : ∀ x ∈ bs, (get_file_info x).isSome)
    (hp : ∀ p ∈ ps, (get_file_info p).isSome)
    (hmem : b ∈ bs)
    (hne : ∀ p ∈ ps, get_file_info p ≠ get_file_info b) :
    ∃ l, coresponding_files bs ps = some l ∧ (b, none) ∈ l ∧
      b ∈ missing_sessions l := by
  obtain ⟨l, hl⟩ := coresponding_files_total bs ps hb hp
  obtain ⟨popt, key, hin, hk, hf⟩ := coresponding_files_mem_of_mem bs ps l b hl hmem
  have hnone : findMatch key ps = some none := findMatch_of_no_match key b ps hk hp hne
  obtain rfl : popt = none := Option.some.inj (hf.symm.trans hnone)
  exact ⟨l, hl, hin, mem_missing_sessions l b hin⟩

/-- Witness for the amended C4 at a behavioural filename with no matching
photometry filename. -/
theorem c4_witness :
    ∃ l, coresponding_files ["m001-2019-01-01.txt"] ["m009-2019-01-01.ppd"] =
        some l ∧
      ("m001-2019-01-01.txt", (none : Option String)) ∈ l ∧
      "m001-2019-01-01.txt" ∈ missing_sessions l :=
  c4_missing_recorded ["m001-2019-01-01.txt"] ["m009-2019-01-01.ppd"]
    "m001-2019-01-01.txt" (by decide) (by decide) (by decide) (by decide)

end ImportScript
